import Mathlib

/-!
Verification of the lockfile-backed drift-detection core of `tooling.py`
(mark's system tooling).  The Python source is shallowly embedded: pure
fragments become Lean functions, the filesystem and the persisted lockfile
storage are explicit inputs, and every fallible operation returns an
`Except`.  Float timestamps are modelled by integers (only equality with the
`0.0` sentinel and equality between observed and locked values matter), and
the blake2b digest is modelled by a deterministic stand-in digest function
(no claim depends on actual digest values, only on the digest being a
deterministic, never-empty function of the content bytes).
-/

namespace Tooling

/-- JSON values as produced by Python's `json.loads`.  Integers and floating
point numbers are distinct constructors because `isinstance(1, float)` is
`False` in Python; float payloads are modelled by integers since only the
runtime type and equality are relevant to the claims. -/
inductive JVal where
  | jnull : JVal
  | jbool : Bool → JVal
  | jint : Int → JVal
  | jfloat : Int → JVal
  | jstr : String → JVal
  | jarr : List JVal → JVal
  | jobj : List (String × JVal) → JVal

/-- Association-list lookup keyed by strings (first match wins). -/
def alookup {α : Type} : List (String × α) → String → Option α
  | [], _ => none
  | (k, v) :: t, key => if k = key then some v else alookup t key

/-- Python-dict insertion: updating an existing key keeps its position,
a new key is appended at the end. -/
def dictInsert {α : Type} : List (String × α) → String → α → List (String × α)
  | [], k, v => [(k, v)]
  | (k0, v0) :: t, k, v =>
      if k0 = k then (k0, v) :: t else (k0, v0) :: dictInsert t k v

/-- The Python dict obtained from a key/value sequence (later duplicate keys
overwrite the value but keep the first position), as built by `json.loads`. -/
def pythonDict {α : Type} (kvs : List (String × α)) : List (String × α) :=
  kvs.foldl (fun d kv => dictInsert d kv.1 kv.2) []

/-- `MSTLockedFileData`: the three required fields of one lockfile entry. -/
structure MSTLockedFileData where
  mtime : Int
  checksum : String
  corresponding_git_hash : String
deriving DecidableEq

/-- Lockfile contents in memory: path string to locked data, in insertion
order (a Python dict). -/
abbrev LockEntries := List (String × MSTLockedFileData)

def hasJKey (kvs : List (String × JVal)) (k : String) : Bool :=
  (alookup kvs k).isSome

/-- `isinstance(x, float)` on a JSON-decoded value. -/
def isJFloat : Option JVal → Bool
  | some (JVal.jfloat _) => true
  | _ => false

/-- `isinstance(x, str)` on a JSON-decoded value. -/
def isJStr : Option JVal → Bool
  | some (JVal.jstr _) => true
  | _ => false

/-- The per-entry validation performed by `MSTLockfile.loads_json`: the entry
must be a dict, hold the three required keys, `mtime` must be a `float`
(an `int` is rejected by `isinstance(..., float)`), and the two hash fields
must be strings.  Extra keys are not examined. -/
def entryWellTyped : JVal → Bool
  | JVal.jobj kvs =>
      hasJKey kvs "mtime" && hasJKey kvs "checksum"
        && hasJKey kvs "corresponding_git_hash"
        && isJFloat (alookup kvs "mtime")
        && isJStr (alookup kvs "checksum")
        && isJStr (alookup kvs "corresponding_git_hash")
  | _ => false

/-- Field extraction for an entry that passed validation. -/
def extractLockData : JVal → MSTLockedFileData
  | JVal.jobj kvs =>
      { mtime := match alookup kvs "mtime" with
          | some (JVal.jfloat m) => m
          | _ => 0
        checksum := match alookup kvs "checksum" with
          | some (JVal.jstr s) => s
          | _ => ""
        corresponding_git_hash := match alookup kvs "corresponding_git_hash" with
          | some (JVal.jstr s) => s
          | _ => "" }
  | _ => { mtime := 0, checksum := "", corresponding_git_hash := "" }

/-- `MSTLockfile.loads_json` applied to an already-JSON-decoded payload: the
payload must be a dict whose every entry passes `entryWellTyped`; the first
offending entry raises `ValueError` (modelled as `Except.error`).  On success
every entry is kept (extra fields are irrelevant to the remaining claims, so
only the three typed fields are retained here). -/
def loads_json (v : JVal) : Except String LockEntries :=
  match v with
  | JVal.jobj kvs0 =>
      let d := pythonDict kvs0
      if d.all (fun kv => entryWellTyped kv.2) then
        Except.ok (d.map (fun kv => (kv.1, extractLockData kv.2)))
      else
        Except.error "invalid lockfile data"
  | _ => Except.error "passed in lockfile content string is not a dictionary"

def isOkB {ε α : Type} : Except ε α → Bool
  | Except.ok _ => true
  | Except.error _ => false

/-- Written from the amended claim: an entry is acceptable when it is a
mapping whose `mtime` field exists and is a float and whose `checksum` and
`corresponding_git_hash` fields exist and are strings; unknown extra fields
are tolerated. -/
def specEntryAcceptable : JVal → Bool
  | JVal.jobj kvs =>
      isJFloat (alookup kvs "mtime") && isJStr (alookup kvs "checksum")
        && isJStr (alookup kvs "corresponding_git_hash")
  | _ => false

/-- Written from the amended claim: a payload is acceptable exactly when it
is a mapping each of whose entries is acceptable. -/
def specPayloadAcceptable : JVal → Bool
  | JVal.jobj kvs => (pythonDict kvs).all fun kv => specEntryAcceptable kv.2
  | _ => false

theorem entryWellTyped_eq_specEntryAcceptable (v : JVal) :
    entryWellTyped v = specEntryAcceptable v := by
  cases v with
  | jobj kvs =>
      simp only [entryWellTyped, specEntryAcceptable, hasJKey]
      cases hm : alookup kvs "mtime" with
      | none => simp [isJFloat]
      | some a =>
        cases hc : alookup kvs "checksum" with
        | none => simp [isJFloat, isJStr]
        | some b =>
          cases hg : alookup kvs "corresponding_git_hash" with
          | none => simp [isJFloat, isJStr]
          | some c => cases a <;> cases b <;> cases c <;> rfl
  | jnull => rfl
  | jbool b => rfl
  | jint n => rfl
  | jfloat m => rfl
  | jstr s => rfl
  | jarr xs => rfl

/-- C6 (amended): `loads_json` accepts a payload exactly when it is a mapping
whose every entry is a mapping carrying the three required fields with
`mtime` a float (an integer mtime is rejected) and the two hash fields
strings; unknown extra fields are tolerated. -/
theorem loads_json_ok_iff_well_typed (v : JVal) :
    isOkB (loads_json v) = specPayloadAcceptable v := by
  cases v with
  | jobj kvs =>
      have hall : ∀ l : List (String × JVal),
          (l.all fun kv => entryWellTyped kv.2)
            = (l.all fun kv => specEntryAcceptable kv.2) := by
        intro l
        induction l with
        | nil => rfl
        | cons kv t ih =>
            simp only [List.all_cons, ih, entryWellTyped_eq_specEntryAcceptable]
      simp only [loads_json, specPayloadAcceptable, ← hall]
      cases h : (pythonDict kvs).all (fun kv => entryWellTyped kv.2) with
      | false => simp [h, isOkB]
      | true => simp [h, isOkB]
  | jnull => rfl
  | jbool b => rfl
  | jint n => rfl
  | jfloat m => rfl
  | jstr s => rfl
  | jarr xs => rfl

/-- C6 (counterexample): a payload whose single entry carries all three
required fields with a numeric — integer — `mtime` is rejected by
`loads_json` (`isinstance(1, float)` is `False`), while the very same entry
with a float `mtime` is accepted; the claim states that any numeric
(integer or floating-point) `mtime` is accepted. -/
theorem loads_json_rejects_integer_mtime :
    isOkB (loads_json (JVal.jobj
      [("a", JVal.jobj
        [("mtime", JVal.jint 1), ("checksum", JVal.jstr "c"),
         ("corresponding_git_hash", JVal.jstr "g")])])) = false
    ∧ isOkB (loads_json (JVal.jobj
      [("a", JVal.jobj
        [("mtime", JVal.jfloat 1), ("checksum", JVal.jstr "c"),
         ("corresponding_git_hash", JVal.jstr "g"),
         ("extra_unknown_field", JVal.jbool true)])])) = true := by
  decide

/-!  Filesystem model and `File` fingerprints. -/

/-- The observable state of one path on disk.  `statOk` is whether
`path.stat()` succeeds (yielding `st_mtime`), `readOk` whether
`path.read_bytes()` succeeds (yielding `content`); a path not present in the
filesystem fails both. -/
structure FSFile where
  statOk : Bool
  st_mtime : Int
  readOk : Bool
  content : List Nat
deriving DecidableEq

/-- The filesystem: regular files by path. -/
abbrev FileSys := List (String × FSFile)

/-- `path.stat().st_mtime`, or `none` when `stat` raises. -/
def fsStat (fs : FileSys) (p : String) : Option Int :=
  match alookup fs p with
  | some f => if f.statOk then some f.st_mtime else none
  | none => none

/-- `path.read_bytes()`, or `none` when the read raises. -/
def fsRead (fs : FileSys) (p : String) : Option (List Nat) :=
  match alookup fs p with
  | some f => if f.readOk then some f.content else none
  | none => none

/-- `path.exists() and path.is_file()` (every `FSFile` is a regular file). -/
def fsExistsFile (fs : FileSys) (p : String) : Bool :=
  (alookup fs p).isSome

/-- Stand-in for `blake2b(contents).hexdigest()`: a deterministic digest of
the byte list.  No claim depends on actual blake2b values, only on the digest
being a deterministic function of the content that is never the empty string
(a real hexdigest is a fixed-length nonempty hex string). -/
def blake2b_hexdigest (bs : List Nat) : String :=
  "b2b." ++ String.intercalate "." (bs.map (fun b => toString b))

theorem blake2b_hexdigest_ne_empty (bs : List Nat) :
    blake2b_hexdigest bs ≠ "" := by
  intro h
  have hlen := congrArg String.length h
  simp [blake2b_hexdigest, String.length_append] at hlen
  exact absurd hlen.1 (by decide)

/-- The `File` dataclass: fresh per run, fields default to the `0` / `""`
sentinels meaning unresolved. -/
structure File where
  path : String
  mtime : Int := 0
  checksum : String := ""
  corresponding_git_hash : String := ""
  locked_mtime : Int := 0
  locked_checksum : String := ""
  locked_corresponding_git_hash : String := ""
deriving DecidableEq

def mkFile (p : String) : File := { path := p }

/-- `File.resolve_mtime`: stats the path when `mtime` is still the `0`
sentinel; returns the cached value otherwise.  A `stat` failure is caught by
the result wrapper and surfaced as an error. -/
def resolve_mtime (fs : FileSys) (f : File) : File × Except Unit Int :=
  if f.mtime = 0 then
    match fsStat fs f.path with
    | some m => ({ f with mtime := m }, Except.ok m)
    | none => (f, Except.error ())
  else
    (f, Except.ok f.mtime)

/-- `File.resolve_checksum`: reads the file bytes and hashes them when
`checksum` is still the `""` sentinel; returns the cached value otherwise.
The third component counts `read_bytes` calls (0 or 1), successful or not —
this is the instrumentation the fast-path claims are stated against. -/
def resolve_checksum (fs : FileSys) (f : File) : File × Except Unit String × Nat :=
  if f.checksum = "" then
    match fsRead fs f.path with
    | some bs =>
        let h := blake2b_hexdigest bs
        ({ f with checksum := h }, Except.ok h, 1)
    | none => (f, Except.error (), 1)
  else
    (f, Except.ok f.checksum, 0)

/-- `File.load_single_lock_data` (safe mode): copy the locked fingerprint
fields out of a lockfile entry. -/
def load_single_lock_data (f : File) (d : MSTLockedFileData) : File :=
  { f with
      locked_mtime := d.mtime
      locked_checksum := d.checksum
      locked_corresponding_git_hash := d.corresponding_git_hash }

/-!  `files__status`: the per-pair drift reconciler. -/

/-- State of one side of a pair after steps 2 and 3 of `files__status`:
the (possibly mutated) `File`, whether a lockfile entry existed, whether the
side is in `files_resolution_errors`, and how many content reads happened. -/
structure SideState where
  file : File
  inLockfile : Bool
  hasError : Bool
  reads : Nat
deriving DecidableEq

/-- Steps 2 and 3 of the `files__status` loop for one side: load the locked
fingerprint and resolve the mtime when a lockfile entry exists (recording a
resolution error when `stat` fails); then, when either the current or the
locked mtime is still the `0` sentinel or the two differ, resolve the
checksum (recording a resolution error when the read fails).  The locked
checksum is never consulted here. -/
def statusProcessSide (fs : FileSys) (lf : LockEntries) (f0 : File) : SideState :=
  let s1 : SideState :=
    match alookup lf f0.path with
    | none => ⟨f0, false, false, 0⟩
    | some d =>
        match resolve_mtime fs (load_single_lock_data f0 d) with
        | (f, Except.ok _) => ⟨f, true, false, 0⟩
        | (f, Except.error _) => ⟨f, true, true, 0⟩
  if s1.file.mtime = 0 ∨ s1.file.locked_mtime = 0
      ∨ s1.file.mtime ≠ s1.file.locked_mtime then
    match resolve_checksum fs s1.file with
    | (f2, Except.ok _, r) => ⟨f2, s1.inLockfile, s1.hasError, s1.reads + r⟩
    | (f2, Except.error _, r) => ⟨f2, s1.inLockfile, true, s1.reads + r⟩
  else
    s1

/-- The verdicts `files__status` can report for a pair.  The source prints
`(same)`, `(different)`, or a `???` error line; `missing` is the verdict the
spec describes for an absent real file, included here so the corresponding
claim is statable — the source never produces it. -/
inductive Verdict where
  | same
  | different
  | missing
  | error
deriving DecidableEq

/-- Per-pair outcome: verdict plus the number of content reads performed on
each side over the whole pair evaluation. -/
structure PairOutcome where
  verdict : Verdict
  virtReads : Nat
  realReads : Nat
deriving DecidableEq

/-- One iteration of the `files__status` reconciliation loop for the tracked
pair `(vp, rp)`: process both sides (steps 2 and 3), then report (step 4):
when both sides have nonzero current and locked mtimes that agree, the pair
is `same` with no further work; otherwise a side already in
`files_resolution_errors` makes the pair an error; otherwise both checksums
are resolved and compared. -/
def files__status_pair (fs : FileSys) (lf : LockEntries) (vp rp : String) :
    PairOutcome :=
  let sv := statusProcessSide fs lf (mkFile vp)
  let sr := statusProcessSide fs lf (mkFile rp)
  let v := sv.file
  let r := sr.file
  if v.mtime ≠ 0 ∧ v.locked_mtime ≠ 0 ∧ r.mtime ≠ 0 ∧ r.locked_mtime ≠ 0
      ∧ v.mtime = v.locked_mtime ∧ r.mtime = r.locked_mtime then
    ⟨Verdict.same, sv.reads, sr.reads⟩
  else if sv.hasError ∨ sr.hasError then
    ⟨Verdict.error, sv.reads, sr.reads⟩
  else
    match resolve_checksum fs v, resolve_checksum fs r with
    | (_, Except.ok hv, cv), (_, Except.ok hr, cr) =>
        if hv = hr then ⟨Verdict.same, sv.reads + cv, sr.reads + cr⟩
        else ⟨Verdict.different, sv.reads + cv, sr.reads + cr⟩
    | (_, Except.ok _, cv), (_, Except.error _, cr) =>
        ⟨Verdict.error, sv.reads + cv, sr.reads + cr⟩
    | (_, Except.error _, cv), (_, _, cr) =>
        ⟨Verdict.error, sv.reads + cv, sr.reads + cr⟩

theorem resolve_checksum_cached (fs : FileSys) (f : File) (h : f.checksum ≠ "") :
    resolve_checksum fs f = (f, Except.ok f.checksum, 0) := by
  simp [resolve_checksum, h]

theorem resolve_checksum_fresh_ok (fs : FileSys) (f : File) (c : List Nat)
    (h : f.checksum = "") (hr : fsRead fs f.path = some c) :
    resolve_checksum fs f
      = ({ f with checksum := blake2b_hexdigest c },
         Except.ok (blake2b_hexdigest c), 1) := by
  simp [resolve_checksum, h, hr]

/-- A side whose lockfile entry has a nonzero locked mtime matching the
freshly stat-ed mtime is trusted without any content read. -/
theorem statusProcessSide_fast (fs : FileSys) (lf : LockEntries)
    (p : String) (d : MSTLockedFileData) (m : Int)
    (hd : alookup lf p = some d) (hs : fsStat fs p = some m)
    (_hm : m ≠ 0) (hl : d.mtime ≠ 0) (heq : m = d.mtime) :
    statusProcessSide fs lf (mkFile p)
      = ⟨{ path := p, mtime := m,
           locked_mtime := d.mtime, locked_checksum := d.checksum,
           locked_corresponding_git_hash := d.corresponding_git_hash },
         true, false, 0⟩ := by
  simp only [statusProcessSide, mkFile, load_single_lock_data, resolve_mtime, hd, hs]
  simp [hl, heq]

/-- A side whose mtime signal is inconclusive (either mtime a sentinel, or a
mismatch) resolves its checksum with exactly one content read. -/
theorem statusProcessSide_slow_read_ok (fs : FileSys) (lf : LockEntries)
    (p : String) (d : MSTLockedFileData) (m : Int) (c : List Nat)
    (hd : alookup lf p = some d) (hs : fsStat fs p = some m)
    (hcond : m = 0 ∨ d.mtime = 0 ∨ m ≠ d.mtime)
    (hr : fsRead fs p = some c) :
    statusProcessSide fs lf (mkFile p)
      = ⟨{ path := p, mtime := m, checksum := blake2b_hexdigest c,
           locked_mtime := d.mtime, locked_checksum := d.checksum,
           locked_corresponding_git_hash := d.corresponding_git_hash },
         true, false, 1⟩ := by
  simp only [statusProcessSide, mkFile, load_single_lock_data, resolve_mtime, hd, hs]
  rcases hcond with h0 | h0 | h0 <;> simp [resolve_checksum, hr, h0]

/-- A side with a lockfile entry whose stat fails is marked as a resolution
error, keeps the `0` mtime sentinel, and still performs one content read. -/
theorem statusProcessSide_entry_stat_fail (fs : FileSys) (lf : LockEntries)
    (p : String) (d : MSTLockedFileData)
    (hd : alookup lf p = some d) (hs : fsStat fs p = none) :
    (statusProcessSide fs lf (mkFile p)).hasError = true
    ∧ (statusProcessSide fs lf (mkFile p)).file.mtime = 0
    ∧ (statusProcessSide fs lf (mkFile p)).reads = 1 := by
  simp only [statusProcessSide, mkFile, load_single_lock_data, resolve_mtime, hd, hs]
  cases hr : fsRead fs p <;> simp [resolve_checksum, hr]

/-- A side whose path is not on disk at all: stat and read both fail, so the
side is marked as a resolution error with the mtime sentinel kept. -/
theorem statusProcessSide_absent (fs : FileSys) (lf : LockEntries) (p : String)
    (h : alookup fs p = none) :
    (statusProcessSide fs lf (mkFile p)).hasError = true
    ∧ (statusProcessSide fs lf (mkFile p)).file.mtime = 0
    ∧ (statusProcessSide fs lf (mkFile p)).reads = 1 := by
  have hs : fsStat fs p = none := by simp [fsStat, h]
  have hr : fsRead fs p = none := by simp [fsRead, h]
  cases hd : alookup lf p with
  | none => simp [statusProcessSide, mkFile, resolve_checksum, hd, hr]
  | some d => exact statusProcessSide_entry_stat_fail fs lf p d hd hs

/-- C1: for a tracked pair whose locked fingerprints are fully resolved
(locked mtime nonzero and locked checksum nonempty on both sides) and whose
freshly observed mtimes equal the locked mtimes, `files__status` reports
`same` and performs no content read (hence no hash computation) on either
side. -/
theorem files_status_fast_path_same (fs : FileSys) (lf : LockEntries)
    (vp rp : String) (dv dr : MSTLockedFileData)
    (hdv : alookup lf vp = some dv) (hdr : alookup lf rp = some dr)
    (hvm : dv.mtime ≠ 0) (_hvc : dv.checksum ≠ "")
    (hrm : dr.mtime ≠ 0) (_hrc : dr.checksum ≠ "")
    (hsv : fsStat fs vp = some dv.mtime) (hsr : fsStat fs rp = some dr.mtime) :
    files__status_pair fs lf vp rp = ⟨Verdict.same, 0, 0⟩ := by
  have h1 := statusProcessSide_fast fs lf vp dv dv.mtime hdv hsv hvm hvm rfl
  have h2 := statusProcessSide_fast fs lf rp dr dr.mtime hdr hsr hrm hrm rfl
  simp only [files__status_pair, h1, h2]
  simp [hvm, hrm]

theorem files_status_fast_path_same_witness :
    files__status_pair
      [("v", ⟨true, 5, true, [1]⟩), ("r", ⟨true, 7, true, [1]⟩)]
      [("v", ⟨5, "cv", "g"⟩), ("r", ⟨7, "cr", "g"⟩)] "v" "r"
      = ⟨Verdict.same, 0, 0⟩ :=
  files_status_fast_path_same _ _ "v" "r" ⟨5, "cv", "g"⟩ ⟨7, "cr", "g"⟩
    (by decide) (by decide) (by decide) (by decide) (by decide) (by decide)
    (by decide) (by decide)

/-- C2 (counterexample): an empty locked-checksum sentinel does not force the
slow path.  Both sides have nonzero locked mtimes equal to the observed
mtimes, the virtual side's locked checksum is the `""` sentinel, and the two
files' contents differ (their digests differ) — yet the pair is reported
`same` with zero content reads, so no hash is resolved and the verdict is
decided by mtime equality alone. -/
theorem files_status_empty_locked_checksum_fast_path :
    files__status_pair
      [("v", ⟨true, 5, true, [1]⟩), ("r", ⟨true, 7, true, [2]⟩)]
      [("v", ⟨5, "", "g"⟩), ("r", ⟨7, "cr", "g"⟩)] "v" "r"
      = ⟨Verdict.same, 0, 0⟩
    ∧ blake2b_hexdigest [1] ≠ blake2b_hexdigest [2]
    ∧ (⟨5, "", "g"⟩ : MSTLockedFileData).checksum = "" := by
  refine ⟨by decide, by decide, rfl⟩

/-- C2 (amended): a side whose locked mtime is still the `0` sentinel forces
the slow path: its content hash is resolved (one read per side) and the
pair's verdict is decided by comparing the two freshly resolved hashes. -/
theorem files_status_unresolved_locked_mtime_slow_path
    (fs : FileSys) (lf : LockEntries) (vp rp : String)
    (dv dr : MSTLockedFileData) (mv mr : Int) (cv cr : List Nat)
    (hdv : alookup lf vp = some dv) (hvm0 : dv.mtime = 0)
    (hdr : alookup lf rp = some dr)
    (hsv : fsStat fs vp = some mv) (hsr : fsStat fs rp = some mr)
    (hrv : fsRead fs vp = some cv) (hrr : fsRead fs rp = some cr) :
    files__status_pair fs lf vp rp
      = ⟨if blake2b_hexdigest cv = blake2b_hexdigest cr
           then Verdict.same else Verdict.different, 1, 1⟩ := by
  have h1 := statusProcessSide_slow_read_ok fs lf vp dv mv cv hdv hsv
    (Or.inr (Or.inl hvm0)) hrv
  by_cases hfast : mr ≠ 0 ∧ dr.mtime ≠ 0 ∧ mr = dr.mtime
  · have h2 := statusProcessSide_fast fs lf rp dr mr hdr hsr
      hfast.1 hfast.2.1 hfast.2.2
    simp only [files__status_pair, h1, h2]
    rw [if_neg (by simp [hvm0])]
    rw [if_neg (by simp)]
    rw [resolve_checksum_cached _ _ (by simpa using blake2b_hexdigest_ne_empty cv)]
    rw [resolve_checksum_fresh_ok _ _ cr rfl (by simpa using hrr)]
    by_cases hh : blake2b_hexdigest cv = blake2b_hexdigest cr <;> simp [hh]
  · have hcond : mr = 0 ∨ dr.mtime = 0 ∨ mr ≠ dr.mtime := by tauto
    have h2 := statusProcessSide_slow_read_ok fs lf rp dr mr cr hdr hsr hcond hrr
    simp only [files__status_pair, h1, h2]
    rw [if_neg (by simp [hvm0])]
    rw [if_neg (by simp)]
    rw [resolve_checksum_cached _ _ (by simpa using blake2b_hexdigest_ne_empty cv)]
    rw [resolve_checksum_cached _ _ (by simpa using blake2b_hexdigest_ne_empty cr)]
    by_cases hh : blake2b_hexdigest cv = blake2b_hexdigest cr <;> simp [hh]

theorem files_status_unresolved_locked_mtime_slow_path_witness :
    files__status_pair
      [("v", ⟨true, 5, true, [1]⟩), ("r", ⟨true, 7, true, [2]⟩)]
      [("v", ⟨0, "", "g"⟩), ("r", ⟨7, "cr", "g"⟩)] "v" "r"
      = ⟨if blake2b_hexdigest [1] = blake2b_hexdigest [2]
           then Verdict.same else Verdict.different, 1, 1⟩ :=
  files_status_unresolved_locked_mtime_slow_path _ _ "v" "r"
    ⟨0, "", "g"⟩ ⟨7, "cr", "g"⟩ 5 7 [1] [2]
    (by decide) (by decide) (by decide) (by decide) (by decide)
    (by decide) (by decide)

/-- C3 (counterexample): the real file is absent and the virtual side
resolves fine (its mtime signal is even trusted, zero reads), yet the pair is
reported with the `error` verdict (`???` output line), not with a `missing`
verdict — `files__status` has no `missing` verdict at all. -/
theorem files_status_absent_real_not_missing :
    files__status_pair
      [("v", ⟨true, 5, true, [1]⟩)]
      [("v", ⟨5, "cv", "g"⟩), ("r", ⟨7, "cr", "g"⟩)] "v" "r"
      = ⟨Verdict.error, 0, 1⟩
    ∧ alookup ([("v", ⟨true, 5, true, [1]⟩)] : FileSys) "r" = none := by
  refine ⟨by decide, by decide⟩

/-- C3 (amended): a pair whose real file does not exist on disk is always
reported with the `error` verdict — never `same` and never `different` —
regardless of the virtual side and of the lockfile contents. -/
theorem files_status_absent_real_is_error
    (fs : FileSys) (lf : LockEntries) (vp rp : String)
    (h : alookup fs rp = none) :
    (files__status_pair fs lf vp rp).verdict = Verdict.error := by
  have habs := statusProcessSide_absent fs lf rp h
  simp only [files__status_pair]
  rw [if_neg (fun hc => hc.2.2.1 habs.2.1), if_pos (Or.inr habs.1)]

theorem files_status_absent_real_is_error_witness :
    (files__status_pair
      [("v", ⟨true, 5, true, [1]⟩)]
      [("v", ⟨5, "cv", "g"⟩), ("r", ⟨7, "cr", "g"⟩)] "v" "r").verdict
      = Verdict.error :=
  files_status_absent_real_is_error _ _ "v" "r" (by decide)

/-- C4 (counterexample): stat of the virtual side fails (its lockfile entry
is present), and the reconciler still attempts a content read on that very
side — one read, which here even succeeds — because the unresolved mtime
routes the side into checksum resolution; the claim states that no read is
attempted on a side whose stat failed. -/
theorem files_status_stat_failure_still_reads :
    files__status_pair
      [("v", ⟨false, 9, true, [3]⟩), ("r", ⟨true, 7, true, [3]⟩)]
      [("v", ⟨4, "", ""⟩), ("r", ⟨7, "x", "h"⟩)] "v" "r"
      = ⟨Verdict.error, 1, 0⟩
    ∧ fsStat [("v", ⟨false, 9, true, [3]⟩), ("r", ⟨true, 7, true, [3]⟩)] "v"
        = none := by
  refine ⟨by decide, by decide⟩

/-- C4 (amended): when resolving the mtime of either side of a tracked pair
fails (the side has a lockfile entry but stat fails), the pair is reported
with the `error` verdict; however the reconciler still attempts exactly one
content read on each side whose stat failed. -/
theorem files_status_stat_failure_error_and_reads
    (fs : FileSys) (lf : LockEntries) (vp rp : String)
    (dv dr : MSTLockedFileData)
    (h : (alookup lf vp = some dv ∧ fsStat fs vp = none)
       ∨ (alookup lf rp = some dr ∧ fsStat fs rp = none)) :
    (files__status_pair fs lf vp rp).verdict = Verdict.error
    ∧ (alookup lf vp = some dv → fsStat fs vp = none
        → (files__status_pair fs lf vp rp).virtReads = 1)
    ∧ (alookup lf rp = some dr → fsStat fs rp = none
        → (files__status_pair fs lf vp rp).realReads = 1) := by
  have hmain : files__status_pair fs lf vp rp
      = ⟨Verdict.error, (statusProcessSide fs lf (mkFile vp)).reads,
          (statusProcessSide fs lf (mkFile rp)).reads⟩ := by
    rcases h with ⟨hd, hs⟩ | ⟨hd, hs⟩
    · have hh := statusProcessSide_entry_stat_fail fs lf vp dv hd hs
      simp only [files__status_pair]
      rw [if_neg (fun hc => hc.1 hh.2.1), if_pos (Or.inl hh.1)]
    · have hh := statusProcessSide_entry_stat_fail fs lf rp dr hd hs
      simp only [files__status_pair]
      rw [if_neg (fun hc => hc.2.2.1 hh.2.1), if_pos (Or.inr hh.1)]
  refine ⟨by rw [hmain], ?_, ?_⟩
  · intro hd hs
    rw [hmain]
    exact (statusProcessSide_entry_stat_fail fs lf vp dv hd hs).2.2
  · intro hd hs
    rw [hmain]
    exact (statusProcessSide_entry_stat_fail fs lf rp dr hd hs).2.2

theorem files_status_stat_failure_error_and_reads_witness :
    (files__status_pair
      [("v", ⟨false, 9, true, [3]⟩), ("r", ⟨true, 7, true, [3]⟩)]
      [("v", ⟨4, "", ""⟩), ("r", ⟨7, "x", "h"⟩)] "v" "r").verdict
      = Verdict.error :=
  (files_status_stat_failure_error_and_reads _ _ "v" "r" ⟨4, "", ""⟩ ⟨7, "x", "h"⟩
    (Or.inl ⟨by decide, by decide⟩)).1

/-!  `files__lock`: lockfile building and persistence. -/

/-- `RepositoryFileState`: the version-control collaborator's snapshot. -/
structure RepositoryFileState where
  git_hash : String
  tracked_files : List String
  dirty_files : List String
  untracked_files : List String
deriving DecidableEq

def charListPrefix : List Char → List Char → Bool
  | [], _ => true
  | _ :: _, [] => false
  | a :: as, b :: bs => if a = b then charListPrefix as bs else false

def charListInfix (needle : List Char) : List Char → Bool
  | [] => charListPrefix needle []
  | hay@(_ :: t) => if charListPrefix needle hay then true else charListInfix needle t

/-- Python's `needle in hay` substring test. -/
def strContains (hay needle : String) : Bool :=
  charListInfix needle.toList hay.toList

/-- `File.resolve_corresponding_git_hash`: a path outside the repository gets
an empty revision hash; a tracked repository path gets the current revision;
an untracked or dirty repository path raises (caught and surfaced as an
error by the result wrapper). -/
def resolve_corresponding_git_hash (repoRoot : String)
    (repofs : RepositoryFileState) (f : File) : File × Except Unit String :=
  if strContains f.path repoRoot = false then
    ({ f with corresponding_git_hash := "" }, Except.ok "")
  else
    let f1 := if repofs.tracked_files.contains f.path
      then { f with corresponding_git_hash := repofs.git_hash } else f
    if repofs.untracked_files.contains f1.path then (f1, Except.error ())
    else if repofs.dirty_files.contains f1.path then (f1, Except.error ())
    else (f1, Except.ok f1.corresponding_git_hash)

/-- `File.dump_single_lock_data`: resolve mtime, checksum and revision hash
in order; any failure propagates (the `.cry()` / `.get()` chain re-raises). -/
def dump_single_lock_data (repoRoot : String) (fs : FileSys)
    (repofs : RepositoryFileState) (f : File) : Except Unit MSTLockedFileData :=
  match resolve_mtime fs f with
  | (_, Except.error _) => Except.error ()
  | (f1, Except.ok _) =>
    match resolve_checksum fs f1 with
    | (_, Except.error _, _) => Except.error ()
    | (f2, Except.ok _, _) =>
      match resolve_corresponding_git_hash repoRoot repofs f2 with
      | (_, Except.error _) => Except.error ()
      | (f3, Except.ok _) =>
          Except.ok ⟨f3.mtime, f3.checksum, f3.corresponding_git_hash⟩

/-- The virtual-side `File` after `mass_resolve_corresponding_git_hashes`
has visited it (the shared object keeps the mutation). -/
def virtAfterMass (repoRoot : String) (repofs : RepositoryFileState)
    (vp : String) : File :=
  (resolve_corresponding_git_hash repoRoot repofs (mkFile vp)).1

/-- The virtual paths whose revision-hash resolution fails during
`mass_resolve_corresponding_git_hashes`. -/
def massResolveErrors (repoRoot : String) (repofs : RepositoryFileState)
    (pairs : List (String × String)) : List String :=
  (pairs.map Prod.fst).filter fun vp =>
    match (resolve_corresponding_git_hash repoRoot repofs (mkFile vp)).2 with
    | Except.error _ => true
    | Except.ok _ => false

/-- The lock-building loop of `files__lock`: for each pair, dump the virtual
side (as left mutated by the mass step) and then the real side into the
fresh lockfile dict; the first failing `.get()` raises, aborting the loop
(`none`). -/
def buildLockEntries (repoRoot : String) (fs : FileSys)
    (repofs : RepositoryFileState) :
    List (String × String) → LockEntries → Option LockEntries
  | [], acc => some acc
  | (vp, rp) :: rest, acc =>
    match dump_single_lock_data repoRoot fs repofs
        (virtAfterMass repoRoot repofs vp) with
    | Except.error _ => none
    | Except.ok dv =>
      match dump_single_lock_data repoRoot fs repofs (mkFile rp) with
      | Except.error _ => none
      | Except.ok dr =>
          buildLockEntries repoRoot fs repofs rest
            (dictInsert (dictInsert acc vp dv) rp dr)

def listReplaceAux (old new : List Char) : Nat → List Char → List Char
  | 0, s => s
  | Nat.succ fuel, s =>
    match s with
    | [] => []
    | c :: t =>
      if charListPrefix old s then
        new ++ listReplaceAux old new fuel (List.drop old.length s)
      else
        c :: listReplaceAux old new fuel t

/-- Python's `s.replace(old, new)`: left-to-right, non-overlapping
replacement of every occurrence (for the nonempty separators it is applied
to here; the fuel only bounds the recursion). -/
def strReplace (s old new : String) : String :=
  String.mk (listReplaceAux old.toList new.toList (s.toList.length + 1) s.toList)

def jstrRender (s : String) : String := "\"" ++ s ++ "\""

/-- One serialized lockfile entry value, as `json.dumps(..., indent=2)`
renders a nested object (the float mtime prints with a trailing `.0` since
mtimes are modelled as integral floats). -/
def renderLockData (d : MSTLockedFileData) : String :=
  "\x7b\n    \"mtime\": " ++ toString d.mtime ++ ".0,\n    \"checksum\": "
    ++ jstrRender d.checksum ++ ",\n    \"corresponding_git_hash\": "
    ++ jstrRender d.corresponding_git_hash ++ "\n  \x7d"

/-- The key-normalization dict comprehension of `MSTLockfile.dumps_json`:
every platform path separator in a key is replaced by a forward slash
(first occurrence keeps its position if two keys collide). -/
def normalizeLockKeys (slash : String) (lf : LockEntries) : LockEntries :=
  lf.foldl (fun d kv => dictInsert d (strReplace kv.1 slash "/") kv.2) []

/-- `MSTLockfile.dumps_json`: `json.dumps` of the normalized dict with
indent 2 — a deterministic function of the entry list (keys in insertion
order, no sorting). -/
def dumps_json (slash : String) (lf : LockEntries) : String :=
  let entries := normalizeLockKeys slash lf
  if entries.isEmpty then "\x7b\x7d"
  else
    "\x7b\n"
      ++ String.intercalate ",\n"
        (entries.map fun kv => "  " ++ jstrRender kv.1 ++ ": "
          ++ renderLockData kv.2)
      ++ "\n\x7d"

theorem dumps_json_ne_empty (slash : String) (lf : LockEntries) :
    dumps_json slash lf ≠ "" := by
  intro h
  have hlen := congrArg String.length h
  simp only [dumps_json] at hlen
  by_cases he : (normalizeLockKeys slash lf).isEmpty
  · rw [if_pos he] at hlen
    exact absurd hlen (by decide)
  · rw [if_neg he] at hlen
    simp [String.length_append] at hlen
    exact absurd hlen.2 (by decide)

/-- `MSTLockfile.dump_to_repo`: `LOCKFILE_PATH.write_text(self.dumps_json())`
— an in-place truncating write.  The completed write leaves exactly the
serialization, whatever the prior storage content was. -/
def dump_to_repo (slash : String) (lf : LockEntries)
    (_priorContent : String) : String :=
  dumps_json slash lf

/-- The storage content if the truncating write of `dump_to_repo` is
interrupted after `k` characters: the file was opened with truncation, so
the prior content is already gone and only the written prefix remains. -/
def dump_to_repo_interrupted (slash : String) (lf : LockEntries)
    (_priorContent : String) (k : Nat) : String :=
  String.mk ((dumps_json slash lf).toList.take k)

/-- Outcome of a `files__lock` run: a normal return with an exit code, or an
uncaught exception; either way, the lockfile storage content afterwards. -/
inductive LockOutcome where
  | exited : Int → String → LockOutcome
  | crashed : String → LockOutcome
deriving DecidableEq

def LockOutcome.lockStorage : LockOutcome → String
  | exited _ s => s
  | crashed s => s

/-- `files__lock`: resolve revision hashes for all virtual files (exit 1 on
any error, nothing written), then build a fresh lockfile dict pair by pair
(an unhandled exception on the first failing `.get()` aborts the run with
nothing written), and only then write the serialization over the storage;
the exit code of a successful run is the number of characters written. -/
def files__lock (repoRoot slash : String) (fs : FileSys)
    (repofs : RepositoryFileState) (pairs : List (String × String))
    (storage : String) : LockOutcome :=
  if massResolveErrors repoRoot repofs pairs ≠ [] then
    LockOutcome.exited 1 storage
  else
    match buildLockEntries repoRoot fs repofs pairs [] with
    | none => LockOutcome.crashed storage
    | some entries =>
        let content := dump_to_repo slash entries storage
        LockOutcome.exited (content.length : Int) content

/-- Whether resolving the fingerprint of either member of a pair fails
during `files__lock` (the virtual side carries the mass-step mutation). -/
def lockPairFails (repoRoot : String) (fs : FileSys)
    (repofs : RepositoryFileState) (p : String × String) : Bool :=
  match dump_single_lock_data repoRoot fs repofs
      (virtAfterMass repoRoot repofs p.1) with
  | Except.error _ => true
  | Except.ok _ =>
    match dump_single_lock_data repoRoot fs repofs (mkFile p.2) with
    | Except.error _ => true
    | Except.ok _ => false

theorem buildLockEntries_none_of_fail (repoRoot : String) (fs : FileSys)
    (repofs : RepositoryFileState) (pairs : List (String × String))
    (acc : LockEntries)
    (h : ∃ p ∈ pairs, lockPairFails repoRoot fs repofs p = true) :
    buildLockEntries repoRoot fs repofs pairs acc = none := by
  induction pairs generalizing acc with
  | nil => exact absurd h (by simp)
  | cons hd tl ih =>
      obtain ⟨p, hp, hfail⟩ := h
      rcases List.mem_cons.mp hp with rfl | hmem
      · simp only [lockPairFails] at hfail
        simp only [buildLockEntries]
        cases hv : dump_single_lock_data repoRoot fs repofs
            (virtAfterMass repoRoot repofs p.1) with
        | error e => rfl
        | ok dv =>
            rw [hv] at hfail
            cases hr : dump_single_lock_data repoRoot fs repofs (mkFile p.2) with
            | error e => rfl
            | ok dr => rw [hr] at hfail; simp at hfail
      · simp only [buildLockEntries]
        cases hv : dump_single_lock_data repoRoot fs repofs
            (virtAfterMass repoRoot repofs hd.1) with
        | error e => rfl
        | ok dv =>
            cases hr : dump_single_lock_data repoRoot fs repofs (mkFile hd.2) with
            | error e => rfl
            | ok dr => exact ih _ ⟨p, hmem, hfail⟩

/-- C5: if resolving any single pair's fingerprint (mtime, checksum or
revision hash) during `files__lock` fails, no bytes reach the persisted
lockfile storage — the pre-existing content is left byte-for-byte unchanged
(the run either exits 1 at the mass step or dies on the unhandled exception
before `dump_to_repo` is ever called). -/
theorem files_lock_all_or_nothing (repoRoot slash : String) (fs : FileSys)
    (repofs : RepositoryFileState) (pairs : List (String × String))
    (storage : String)
    (h : ∃ p ∈ pairs, lockPairFails repoRoot fs repofs p = true) :
    (files__lock repoRoot slash fs repofs pairs storage).lockStorage
      = storage := by
  by_cases hm : massResolveErrors repoRoot repofs pairs ≠ []
  · simp [files__lock, hm, LockOutcome.lockStorage]
  · simp [files__lock, hm, LockOutcome.lockStorage,
      buildLockEntries_none_of_fail repoRoot fs repofs pairs [] h]

theorem files_lock_all_or_nothing_witness :
    (files__lock "/repo" "/"
      [("/repo/v", ⟨true, 5, true, [1]⟩)]
      ⟨"abc123", ["/repo/v"], [], []⟩
      [("/repo/v", "/etc/v")] "OLDCONTENT").lockStorage = "OLDCONTENT" :=
  files_lock_all_or_nothing "/repo" "/"
    [("/repo/v", ⟨true, 5, true, [1]⟩)]
    ⟨"abc123", ["/repo/v"], [], []⟩
    [("/repo/v", "/etc/v")] "OLDCONTENT"
    ⟨("/repo/v", "/etc/v"), by decide, by decide⟩

/-- C9: running `files__lock` twice in succession over the same filesystem
and repository state leaves the same persisted lockfile content as running
it once — the build never reads the prior storage, so the second run writes
a byte-identical serialization (and a failing run leaves storage untouched
both times). -/
theorem files_lock_idempotent_storage (repoRoot slash : String) (fs : FileSys)
    (repofs : RepositoryFileState) (pairs : List (String × String))
    (storage : String) :
    (files__lock repoRoot slash fs repofs pairs
        ((files__lock repoRoot slash fs repofs pairs storage).lockStorage)).lockStorage
      = (files__lock repoRoot slash fs repofs pairs storage).lockStorage := by
  by_cases hm : massResolveErrors repoRoot repofs pairs ≠ []
  · simp [files__lock, hm, LockOutcome.lockStorage]
  · cases hb : buildLockEntries repoRoot fs repofs pairs [] with
    | none => simp [files__lock, hm, hb, LockOutcome.lockStorage]
    | some entries =>
        simp [files__lock, hm, hb, LockOutcome.lockStorage, dump_to_repo]

/-- C7 (counterexample): `dump_to_repo` writes by truncating the lockfile in
place (`Path.write_text`), not write-then-replace: interrupting the write of
a one-entry lockfile after 1 character leaves storage holding neither the
prior valid content nor the new serialization — the prior valid state is
corrupted. -/
theorem dump_to_repo_interrupt_corrupts :
    dump_to_repo_interrupted "/" [("a", ⟨1, "c", "g"⟩)] "\x7b\x7d" 1 ≠ "\x7b\x7d"
    ∧ dump_to_repo_interrupted "/" [("a", ⟨1, "c", "g"⟩)] "\x7b\x7d" 1
        ≠ dumps_json "/" [("a", ⟨1, "c", "g"⟩)] := by
  refine ⟨by decide, by decide⟩

/-- C7 (amended): persistence serializes the mapping deterministically
(insertion-ordered keys, separators normalized to forward slashes) and the
completed write replaces storage with exactly that serialization regardless
of the prior content; but the write is an in-place truncate, so for every
nonempty prior content and every lockfile there is an interruption point
(namely 0 characters written) whose result corrupts the prior valid content:
it equals neither the old nor the new serialization. -/
theorem dump_to_repo_truncating_write (slash : String) (lf : LockEntries)
    (old : String) (h : old ≠ "") :
    dump_to_repo slash lf old = dumps_json slash lf
    ∧ ∃ k : Nat, dump_to_repo_interrupted slash lf old k ≠ old
        ∧ dump_to_repo_interrupted slash lf old k ≠ dumps_json slash lf := by
  refine ⟨rfl, 0, ?_, ?_⟩
  · simpa [dump_to_repo_interrupted] using Ne.symm h
  · simpa [dump_to_repo_interrupted] using
      Ne.symm (dumps_json_ne_empty slash lf)

theorem dump_to_repo_truncating_write_witness :
    dump_to_repo "/" [("a", ⟨1, "c", "g"⟩)] "old" = dumps_json "/" [("a", ⟨1, "c", "g"⟩)]
    ∧ ∃ k : Nat, dump_to_repo_interrupted "/" [("a", ⟨1, "c", "g"⟩)] "old" k ≠ "old"
        ∧ dump_to_repo_interrupted "/" [("a", ⟨1, "c", "g"⟩)] "old" k
            ≠ dumps_json "/" [("a", ⟨1, "c", "g"⟩)] :=
  dump_to_repo_truncating_write "/" [("a", ⟨1, "c", "g"⟩)] "old" (by decide)

/-!  `MSTLockfile.verify` and `files__sync`. -/

/-- `MSTLockfile.prune_dangling_entries`: entries whose path no longer is an
existing regular file are removed from the lockfile and returned; the result
is `(remaining, pruned)`. -/
def prune_dangling_entries (fs : FileSys) (lf : LockEntries) :
    LockEntries × LockEntries :=
  (lf.filter (fun kv => fsExistsFile fs kv.1),
   lf.filter (fun kv => !fsExistsFile fs kv.1))

/-- Key membership in a string-keyed dict. -/
def hasKeyIn {α : Type} : List (String × α) → String → Bool
  | [], _ => false
  | kv :: t, p => if kv.1 = p then true else hasKeyIn t p

/-- No key of the first dict occurs in the second. -/
def keysDisjoint {α β : Type} : List (String × α) → List (String × β) → Bool
  | [], _ => true
  | kv :: t, b => !hasKeyIn b kv.1 && keysDisjoint t b

/-- The `results.dangling` dict built from the pruned entries. -/
def danglingMessages (removed : LockEntries) : List (String × String) :=
  removed.foldl
    (fun d kv => dictInsert d kv.1 ("pruned dangling entry for " ++ kv.1)) []

/-- The `results.missing` dict: expected files with no lockfile entry
(checked against the already-pruned lockfile). -/
def missingMessages (lf2 : LockEntries) (files : List String) :
    List (String × String) :=
  files.foldl
    (fun d p =>
      if (alookup lf2 p).isNone then
        dictInsert d p ("missing entry for " ++ p)
      else d) []

/-- One entry's contribution to `results.unresolved`: each of the three
fields still holding its sentinel value overwrites the message under the
entry's path. -/
def unresolvedStep (d : List (String × String))
    (kv : String × MSTLockedFileData) : List (String × String) :=
  let d1 := if kv.2.mtime = 0
    then dictInsert d kv.1 ("unresolved mtime for " ++ kv.1) else d
  let d2 := if kv.2.checksum = ""
    then dictInsert d1 kv.1 ("unresolved checksum for " ++ kv.1) else d1
  if kv.2.corresponding_git_hash = ""
    then dictInsert d2 kv.1 ("unresolved corresponding_git_hash for " ++ kv.1)
    else d2

def unresolvedMessages (lf2 : LockEntries) : List (String × String) :=
  lf2.foldl unresolvedStep []

/-- `MSTLockfile.verify`'s three result dicts. -/
structure MSTLockfileVerificationResult where
  dangling : List (String × String)
  missing : List (String × String)
  unresolved : List (String × String)
deriving DecidableEq

/-- `MSTLockfile.verify`: prune dangling entries (reporting them), report
expected files without an entry, and report entries with sentinel field
values; returns the pruned lockfile (the mutated `self`) and the three
message dicts. -/
def verify (fs : FileSys) (lf : LockEntries) (files : List String) :
    LockEntries × MSTLockfileVerificationResult :=
  let pruned := prune_dangling_entries fs lf
  (pruned.1,
   ⟨danglingMessages pruned.2,
    missingMessages pruned.1 files,
    unresolvedMessages pruned.1⟩)

theorem hasKeyIn_dictInsert {α : Type} (d : List (String × α)) (k p : String)
    (v : α) :
    hasKeyIn (dictInsert d k v) p = true
      ↔ (hasKeyIn d p = true ∨ k = p) := by
  induction d with
  | nil => simp [dictInsert, hasKeyIn]
  | cons kv t ih =>
      simp only [dictInsert]
      by_cases h0 : kv.1 = k
      · rw [if_pos h0]
        simp only [hasKeyIn]
        by_cases h1 : kv.1 = p
        · simp [h1]
        · rw [if_neg h1]
          constructor
          · exact Or.inl
          · rintro (h | rfl)
            · exact h
            · exact absurd h0 h1
      · rw [if_neg h0]
        simp only [hasKeyIn]
        by_cases h1 : kv.1 = p
        · simp [h1]
        · rw [if_neg h1, if_neg h1]
          exact ih

theorem alookup_isSome_of_hasKeyIn {α : Type} (l : List (String × α))
    (p : String) (h : hasKeyIn l p = true) : (alookup l p).isSome = true := by
  induction l with
  | nil => exact absurd h (by simp [hasKeyIn])
  | cons kv t ih =>
      simp only [hasKeyIn] at h
      simp only [alookup]
      by_cases h1 : kv.1 = p
      · simp [h1]
      · rw [if_neg h1] at h ⊢
        exact ih h

theorem hasKeyIn_filter_pred {α : Type} (pred : String → Bool)
    (l : List (String × α)) (p : String)
    (h : hasKeyIn (l.filter (fun kv => pred kv.1)) p = true) : pred p = true := by
  induction l with
  | nil => exact absurd h (by simp [hasKeyIn])
  | cons kv t ih =>
      rw [List.filter_cons] at h
      by_cases hq : pred kv.1
      · rw [if_pos (show (fun kv => pred kv.1) kv = true from hq)] at h
        simp only [hasKeyIn] at h
        by_cases h1 : kv.1 = p
        · exact h1 ▸ hq
        · rw [if_neg h1] at h
          exact ih h
      · rw [if_neg (show ¬(fun kv => pred kv.1) kv = true from hq)] at h
        exact ih h

theorem hasKeyIn_missingMessages (lf2 : LockEntries) (files : List String)
    (d : List (String × String)) (p : String)
    (h : hasKeyIn (files.foldl
      (fun d q =>
        if (alookup lf2 q).isNone then
          dictInsert d q ("missing entry for " ++ q)
        else d) d) p = true) :
    hasKeyIn d p = true ∨ (alookup lf2 p).isNone = true := by
  induction files generalizing d with
  | nil => exact Or.inl h
  | cons f t ih =>
      simp only [List.foldl_cons] at h
      rcases ih _ h with hd | hnone
      · by_cases hq : (alookup lf2 f).isNone
        · rw [if_pos hq] at hd
          rcases (hasKeyIn_dictInsert _ _ _ _).mp hd with hd2 | rfl
          · exact Or.inl hd2
          · exact Or.inr hq
        · rw [if_neg hq] at hd
          exact Or.inl hd
      · exact Or.inr hnone

theorem hasKeyIn_unresolvedStep (d : List (String × String))
    (kv : String × MSTLockedFileData) (p : String)
    (h : hasKeyIn (unresolvedStep d kv) p = true) :
    hasKeyIn d p = true ∨ kv.1 = p := by
  simp only [unresolvedStep] at h
  split at h <;> split at h <;> split at h <;>
    first
      | exact Or.inl h
      | (rcases (hasKeyIn_dictInsert _ _ _ _).mp h with h2 | h2
         · first
             | exact Or.inl h2
             | (rcases (hasKeyIn_dictInsert _ _ _ _).mp h2 with h3 | h3
                · first
                    | exact Or.inl h3
                    | (rcases (hasKeyIn_dictInsert _ _ _ _).mp h3 with h4 | h4
                       · exact Or.inl h4
                       · exact Or.inr h4)
                · exact Or.inr h3)
         · exact Or.inr h2)

theorem hasKeyIn_unresolvedMessages (lf2 : LockEntries)
    (d : List (String × String)) (p : String)
    (h : hasKeyIn (lf2.foldl unresolvedStep d) p = true) :
    hasKeyIn d p = true ∨ hasKeyIn lf2 p = true := by
  induction lf2 generalizing d with
  | nil => exact Or.inl h
  | cons kv t ih =>
      simp only [List.foldl_cons] at h
      rcases ih _ h with hd | ht
      · rcases hasKeyIn_unresolvedStep _ _ _ hd with hd2 | hk
        · exact Or.inl hd2
        · right
          simp [hasKeyIn, hk]
      · right
        simp only [hasKeyIn]
        by_cases h1 : kv.1 = p <;> simp [h1, ht]

theorem hasKeyIn_danglingMessages (removed : LockEntries)
    (d : List (String × String)) (p : String)
    (h : hasKeyIn (removed.foldl
      (fun d kv => dictInsert d kv.1 ("pruned dangling entry for " ++ kv.1)) d)
        p = true) :
    hasKeyIn d p = true ∨ hasKeyIn removed p = true := by
  induction removed generalizing d with
  | nil => exact Or.inl h
  | cons kv t ih =>
      simp only [List.foldl_cons] at h
      rcases ih _ h with hd | ht
      · rcases (hasKeyIn_dictInsert _ _ _ _).mp hd with hd2 | hk
        · exact Or.inl hd2
        · right
          simp [hasKeyIn, hk]
      · right
        simp only [hasKeyIn]
        by_cases h1 : kv.1 = p <;> simp [h1, ht]

theorem keysDisjoint_of_forall {α β : Type} (a : List (String × α))
    (b : List (String × β))
    (h : ∀ p, hasKeyIn a p = true → hasKeyIn b p = false) :
    keysDisjoint a b = true := by
  induction a with
  | nil => rfl
  | cons kv t ih =>
      simp only [keysDisjoint, Bool.and_eq_true, Bool.not_eq_true']
      refine ⟨h kv.1 (by simp [hasKeyIn]), ih ?_⟩
      intro p hp
      apply h
      simp only [hasKeyIn]
      by_cases h1 : kv.1 = p <;> simp [h1, hp]

/-- Keys appearing in `hasKeyIn lf2` have `isSome` lookups, so a path cannot
be both missing and unresolved; pruned keys fail the existence check while
unresolved keys pass it, so a path cannot be both dangling and unresolved. -/
theorem hasKeyIn_entries_of_unresolved (fs : FileSys) (lf : LockEntries)
    (p : String)
    (h : hasKeyIn (unresolvedMessages (prune_dangling_entries fs lf).1) p
      = true) :
    hasKeyIn (prune_dangling_entries fs lf).1 p = true := by
  rcases hasKeyIn_unresolvedMessages _ [] p h with h0 | h1
  · exact absurd h0 (by simp [hasKeyIn])
  · exact h1

/-- C8 (amended): `verify` returns `missing` and `unresolved` with no path
in common, and `dangling` and `unresolved` with no path in common;
`dangling` and `missing` however are not disjoint in general (see the
counterexample), since an expected path whose entry was just pruned appears
in both. -/
theorem verify_unresolved_disjoint (fs : FileSys) (lf : LockEntries)
    (files : List String) :
    keysDisjoint (verify fs lf files).2.missing
        (verify fs lf files).2.unresolved = true
    ∧ keysDisjoint (verify fs lf files).2.dangling
        (verify fs lf files).2.unresolved = true := by
  constructor
  · apply keysDisjoint_of_forall
    intro p hp
    rcases hasKeyIn_missingMessages _ _ [] p hp with h0 | hnone
    · exact absurd h0 (by simp [hasKeyIn])
    · rw [Bool.eq_false_iff]
      intro hu
      have hsome := alookup_isSome_of_hasKeyIn _ _
        (hasKeyIn_entries_of_unresolved fs lf p hu)
      rw [Option.isNone_iff_eq_none] at hnone
      rw [hnone] at hsome
      exact absurd hsome (by simp)
  · apply keysDisjoint_of_forall
    intro p hp
    rcases hasKeyIn_danglingMessages _ [] p hp with h0 | hrem
    · exact absurd h0 (by simp [hasKeyIn])
    · rw [Bool.eq_false_iff]
      intro hu
      have hex : fsExistsFile fs p = true :=
        hasKeyIn_filter_pred _ _ _ (hasKeyIn_entries_of_unresolved fs lf p hu)
      have hnex := hasKeyIn_filter_pred (fun q => !fsExistsFile fs q) lf p hrem
      simp only [Bool.not_eq_true'] at hnex
      rw [hex] at hnex
      exact Bool.noConfusion hnex

/-- C8 (counterexample): the path `r` has a lockfile entry but no longer
exists on disk while being among the expected files: `verify` prunes it
(reporting it as dangling) and then also reports it as missing, so the same
path appears in two of the three message sets — they are not pairwise
disjoint. -/
theorem verify_dangling_missing_overlap :
    hasKeyIn (verify [("v", ⟨true, 5, true, [1]⟩)]
      [("v", ⟨5, "c", "g"⟩), ("r", ⟨7, "c", "g"⟩)] ["v", "r"]).2.dangling "r"
      = true
    ∧ hasKeyIn (verify [("v", ⟨true, 5, true, [1]⟩)]
      [("v", ⟨5, "c", "g"⟩), ("r", ⟨7, "c", "g"⟩)] ["v", "r"]).2.missing "r"
      = true := by
  refine ⟨by decide, by decide⟩

/-- The persisted lockfile as `files__sync` finds it: missing, unparseable
text, or a JSON payload. -/
inductive LockStorage where
  | absent : LockStorage
  | unparseable : LockStorage
  | parsed : JVal → LockStorage

/-- `MSTLockfile.load_from_repo` as used by `files__sync`
(`prune_dangling_entries=False`): a missing or unreadable lockfile raises,
unparseable text raises inside `json.loads`, otherwise `loads_json` decides. -/
def load_from_repo (storage : LockStorage) : Except String LockEntries :=
  match storage with
  | LockStorage.absent => Except.error "lockfile not found"
  | LockStorage.unparseable => Except.error "json decode error"
  | LockStorage.parsed v => loads_json v

/-- `files__sync`: load the lockfile (exit 1 on failure), verify it against
all tracked files (printing the problems and guidance when any entry is
missing or unresolved) — and return exit code 1 on every path; the function
performs no write: neither the filesystem nor the lockfile storage changes
(both are threaded through unchanged, mirroring the absence of any write
call in the source). -/
def files__sync (fs : FileSys) (storage : LockStorage)
    (filePaths : List String) : Int × FileSys × LockStorage :=
  match load_from_repo storage with
  | Except.error _ => (1, fs, storage)
  | Except.ok entries =>
      let res := (verify fs entries filePaths).2
      if res.missing.length + res.unresolved.length ≠ 0 then
        (1, fs, storage)
      else
        (1, fs, storage)

/-- C10: for every filesystem, lockfile storage state and tracked-file list,
`files__sync` returns exit code 1 and leaves both the filesystem and the
persisted lockfile storage unchanged — including when the lockfile loads
and verification finds nothing missing or unresolved. -/
theorem files_sync_exit_one_no_writes (fs : FileSys) (storage : LockStorage)
    (filePaths : List String) :
    files__sync fs storage filePaths = (1, fs, storage) := by
  simp only [files__sync]
  cases load_from_repo storage with
  | error e => rfl
  | ok entries => exact ite_self _

end Tooling
